import Mathlib

/-!
Verification of the DFU interface-descriptor parsing core of `rust-dfu`
(`src/util/parse.rs`, `src/util/memory.rs`, `src/usb/stm32dfu.rs`).

Rust strings are modelled as `List Char`; `usize` values are modelled as `Nat`
with the `usize::from_str_radix` overflow bound made explicit.  Rust `Result`
becomes `Except`; parser functions that can hit an unchecked `usize`
subtraction or an out-of-bounds slice (a Rust panic) return a `POutcome`
with an explicit `panics` case.
-/

deriving instance DecidableEq for Except

namespace RustDfu

/-- The value of `usize::MAX` on the 64-bit targets the program compiles for. -/
def USIZE_MAX : Nat := 2 ^ 64 - 1

/-- Whitespace characters stripped by `str::trim` (restricted to the ASCII
whitespace that can occur in DFU descriptor strings). -/
def isRustWhitespace (c : Char) : Bool :=
  c = ' ' || c = '\t' || c = '\n' || c = '\r'

/-- Model of `str::trim`: drop whitespace from both ends. -/
def trim (s : List Char) : List Char :=
  ((s.dropWhile isRustWhitespace).reverse.dropWhile isRustWhitespace).reverse

/-- Model of `str::starts_with` for a one-character pattern. -/
def starts_with (s : List Char) (c : Char) : Bool :=
  match s with
  | [] => false
  | d :: _ => d = c

/-- Model of `str::split` with a one-character separator: like Rust's
iterator, it always yields at least one (possibly empty) piece. -/
def splitOnChar (sep : Char) : List Char → List (List Char)
  | [] => [[]]
  | c :: rest =>
    match splitOnChar sep rest with
    | [] => [[]]
    | h :: t => if c = sep then [] :: h :: t else (c :: h) :: t

/-- Model of `char::to_digit`: digit value of `c` in base `radix`
(`0`-`9`, `a`-`z`, `A`-`Z`), or `none` when `c` is no digit below `radix`. -/
def to_digit (c : Char) (radix : Nat) : Option Nat :=
  let v := c.toNat
  let d? : Option Nat :=
    if 48 ≤ v && v ≤ 57 then some (v - 48)
    else if 97 ≤ v && v ≤ 122 then some (v - 97 + 10)
    else if 65 ≤ v && v ≤ 90 then some (v - 65 + 10)
    else none
  match d? with
  | some d => if d < radix then some d else none
  | none => none

/-- Digit-accumulation loop of `usize::from_str_radix`: fails on a
non-digit and on exceeding `usize::MAX`. -/
def from_str_radix_go (radix : Nat) : List Char → Nat → Option Nat
  | [], acc => some acc
  | c :: rest, acc =>
    match to_digit c radix with
    | some d =>
      if acc * radix + d ≤ USIZE_MAX then from_str_radix_go radix rest (acc * radix + d)
      else none
    | none => none

/-- Model of `usize::from_str_radix`: an optional leading `+` (with at least
one digit after it), then a non-empty run of digits of the radix; a leading
`-` is not a digit for an unsigned type and fails. -/
def from_str_radix (s : List Char) (radix : Nat) : Except Unit Nat :=
  match s with
  | [] => .error ()
  | c :: rest =>
    if c = '+' then
      match rest with
      | [] => .error ()
      | _ =>
        match from_str_radix_go radix rest 0 with
        | some v => .ok v
        | none => .error ()
    else
      match from_str_radix_go radix (c :: rest) 0 with
      | some v => .ok v
      | none => .error ()

/-- Model of `skip` in `src/util/parse.rs`: drop one leading character,
failing when fewer than two characters remain. -/
def skip (instr : List Char) : Except Unit (List Char) :=
  if instr.length < 2 then .error () else .ok instr.tail

/-- Model of `usize_from_string` in `src/util/parse.rs`: multi-radix
numeric literal parser (leading `0` selects octal and is dropped, a leading
backslash is dropped, then `x`/`o`/`b` select hex/octal/binary). -/
def usize_from_string (instr : List Char) : Except Unit Nat :=
  if instr.length = 0 then .error ()
  else
    let radix : Nat := 10
    let remain := instr
    let radix := if starts_with remain '0' then 8 else radix
    let step1 : Except Unit (List Char) :=
      if radix = 8 || starts_with remain '\\' then skip remain else .ok remain
    match step1 with
    | .error _ => .error ()
    | .ok remain =>
      let (radix, step2) : Nat × Except Unit (List Char) :=
        if starts_with remain 'x' then (16, skip remain)
        else if starts_with remain 'o' then (8, skip remain)
        else if starts_with remain 'b' then (2, skip remain)
        else (radix, .ok remain)
      match step2 with
      | .error _ => .error ()
      | .ok remain => from_str_radix remain radix

/-- The `Accessibility` bitflags of `src/util/memory.rs`, as a `Nat` bitmask. -/
def Accessibility.NONE : Nat := 0

/-- `Accessibility::READ` (bit 0). -/
def Accessibility.READ : Nat := 1

/-- `Accessibility::WRITE` (bit 1). -/
def Accessibility.WRITE : Nat := 2

/-- `Accessibility::READ_WRITE`. -/
def Accessibility.READ_WRITE : Nat := Accessibility.READ ||| Accessibility.WRITE

/-- `Accessibility::ERASE` (bit 2). -/
def Accessibility.ERASE : Nat := 4

/-- `Accessibility::READ_ERASE`. -/
def Accessibility.READ_ERASE : Nat := Accessibility.READ ||| Accessibility.ERASE

/-- `Accessibility::WRITE_ERASE`. -/
def Accessibility.WRITE_ERASE : Nat := Accessibility.WRITE ||| Accessibility.ERASE

/-- `Accessibility::READ_WRITE_ERASE`. -/
def Accessibility.READ_WRITE_ERASE : Nat :=
  Accessibility.READ_WRITE ||| Accessibility.ERASE

/-- The `Sector` struct of `src/util/memory.rs`. -/
structure Sector where
  index : Nat
  address : Nat
  block_count : Nat
  block_size : Nat
  access : Nat
deriving DecidableEq

/-- `Sector::new`. -/
def Sector.new (index address block_count block_size access : Nat) : Sector :=
  ⟨index, address, block_count, block_size, access⟩

/-- `Sector::total_size`: total byte size of all blocks in the sector. -/
def Sector.total_size (s : Sector) : Nat :=
  s.block_count * s.block_size

/-- `Sector::is_accessible`: the requested access bits are all supported. -/
def Sector.is_accessible (s : Sector) (access : Nat) : Bool :=
  access &&& s.access == access

/-- The `Bank` struct of `src/util/memory.rs`. -/
structure Bank where
  index : Nat
  address : Nat
  sectors : List Sector
deriving DecidableEq

/-- `Bank::new`. -/
def Bank.new (index address : Nat) (sectors : List Sector) : Bank :=
  ⟨index, address, sectors⟩

/-- `Bank::from_sectors`: the bank address is the first sector's address,
or 0 when there are no sectors. -/
def Bank.from_sectors (index : Nat) (sectors : List Sector) : Bank :=
  let address :=
    match sectors with
    | [] => 0
    | s :: _ => s.address
  Bank.new index address sectors

/-- The `MemoryMap` struct of `src/util/memory.rs`. -/
structure MemoryMap where
  name : List Char
  banks : List Bank
deriving DecidableEq

/-- `MemoryMap::new`. -/
def MemoryMap.new (name : List Char) (banks : List Bank) : MemoryMap :=
  ⟨name, banks⟩

/-- The `DefParseError` enum of `src/usb/stm32dfu.rs`. -/
inductive DefParseError where
  | InvalidStartChar
  | InvalidBankPartCount
  | AddressParseError
  | InvalidSectorDefinition
deriving DecidableEq

/-- Outcome of a Rust function that can return `Ok`, return `Err`, or
panic (an unchecked `usize` subtraction / out-of-bounds slice). -/
inductive POutcome (α : Type) where
  | panics : POutcome α
  | err : DefParseError → POutcome α
  | ok : α → POutcome α
deriving DecidableEq

/-- The size-multiplier match of `parse_sector_layout`
(`src/usb/stm32dfu.rs:233`): note the source maps `' '` to 0, not 1. -/
def size_multiplier_of_char (c : Char) : Option Nat :=
  match c with
  | 'M' => some (1024 * 1024)
  | 'K' => some 1024
  | ' ' => some 0
  | _ => none

/-- The access-character match of `parse_sector_layout`
(`src/usb/stm32dfu.rs:241`). -/
def access_of_char (c : Char) : Option Nat :=
  match c with
  | 'a' => some Accessibility.READ
  | 'b' => some Accessibility.ERASE
  | 'c' => some Accessibility.READ_ERASE
  | 'd' => some Accessibility.WRITE
  | 'e' => some Accessibility.READ_WRITE
  | 'f' => some Accessibility.WRITE_ERASE
  | 'g' => some Accessibility.READ_WRITE_ERASE
  | _ => none

/-- Body of `parse_sector_layout` after the token has been cut into the
`'*'`-separated fields before the two structural characters and the two
structural characters themselves.  The count and size fields are trimmed and
parsed as plain decimal via `str::parse::<usize>` (= `from_str_radix` base
10); any failure is `InvalidSectorDefinition`.  The source's
`block_size *= multiplier` is `usize` arithmetic: it wraps modulo 2^64 in
release builds (a debug build would panic on overflow instead), so the
product is taken modulo `USIZE_MAX + 1`; theorems about accepted tokens
carry an explicit no-overflow bound, inside which both build profiles and
this model agree. -/
def parse_sector_fields (sector_index sector_address : Nat) :
    List (List Char) → List Char → POutcome Sector
  | [], _ => .err .InvalidSectorDefinition
  | [_], _ => .err .InvalidSectorDefinition
  | f0 :: f1 :: _, def_chars =>
    match from_str_radix (trim f0) 10 with
    | .error _ => .err .InvalidSectorDefinition
    | .ok block_count =>
      match from_str_radix (trim f1) 10 with
      | .error _ => .err .InvalidSectorDefinition
      | .ok block_size =>
        match def_chars with
        | [] => .err .InvalidSectorDefinition
        | [_] => .err .InvalidSectorDefinition
        | size_multiplier_char :: access_type :: _ =>
          match size_multiplier_of_char size_multiplier_char with
          | none => .err .InvalidSectorDefinition
          | some mult =>
            match access_of_char access_type with
            | none => .err .InvalidSectorDefinition
            | some access =>
              .ok (Sector.new sector_index sector_address block_count
                    ((block_size * mult) % (USIZE_MAX + 1)) access)

/-- Model of `parse_sector_layout` (`src/usb/stm32dfu.rs:194`).  The source
computes `layoutstr.len() - 2` with an unchecked subtraction and then slices
at that position, so a token shorter than two characters panics. -/
def parse_sector_layout (sector_index sector_address : Nat)
    (layoutstr : List Char) : POutcome Sector :=
  if layoutstr.length < 2 then .panics
  else
    parse_sector_fields sector_index sector_address
      (splitOnChar '*' (layoutstr.take (layoutstr.length - 2)))
      (layoutstr.drop (layoutstr.length - 2))

/-- The per-bank sector loop of `parse_memory_layout_string`
(`src/usb/stm32dfu.rs:164`): each sector advances the running block index by
its `block_count` and the running address by its `total_size`. -/
def parse_sectors (sector_index sector_address : Nat) :
    List (List Char) → POutcome (List Sector)
  | [] => .ok []
  | layout :: rest =>
    match parse_sector_layout sector_index sector_address layout with
    | .panics => .panics
    | .err e => .err e
    | .ok sector =>
      match parse_sectors (sector_index + sector.block_count)
          (sector_address + sector.total_size) rest with
      | .panics => .panics
      | .err e => .err e
      | .ok sectors => .ok (sector :: sectors)

/-- The bank loop of `parse_memory_layout_string` (`src/usb/stm32dfu.rs:140`):
consume the remaining `/`-separated segments two at a time as a base address
and a comma-separated layout list. -/
def parse_banks (bank_index : Nat) : List (List Char) → POutcome (List Bank)
  | [] => .ok []
  | addr_str :: rest =>
    match usize_from_string addr_str with
    | .error _ => .err .AddressParseError
    | .ok base_address =>
      match rest with
      | [] => .err .InvalidBankPartCount
      | layouts_str :: rest2 =>
        match parse_sectors 0 base_address (splitOnChar ',' layouts_str) with
        | .panics => .panics
        | .err e => .err e
        | .ok sector_list =>
          match parse_banks (bank_index + 1) rest2 with
          | .panics => .panics
          | .err e => .err e
          | .ok banks => .ok (Bank.from_sectors bank_index sector_list :: banks)

/-- Model of `parse_memory_layout_string` (`src/usb/stm32dfu.rs:123`). -/
def parse_memory_layout_string (ifstring : List Char) : POutcome MemoryMap :=
  match splitOnChar '/' ifstring with
  | [] => .err .InvalidBankPartCount
  | namestr_part :: rest =>
    if !(starts_with namestr_part '@') then .err .InvalidStartChar
    else
      match parse_banks 0 rest with
      | .panics => .panics
      | .err e => .err e
      | .ok banks => .ok (MemoryMap.new (trim namestr_part.tail) banks)

/-- `48 ≤ c.toNat && c.toNat ≤ 57`: the decimal-digit characters.  Used to
state which tokens the claims about digit-run fields quantify over. -/
def isDecDigit (c : Char) : Bool :=
  48 ≤ c.toNat && c.toNat ≤ 57

/-- One decimal digit folded into an accumulator. -/
def decStep (a : Nat) (c : Char) : Nat :=
  a * 10 + (c.toNat - 48)

/-- Mathematical value of a decimal digit run (most significant first). -/
def decValue (s : List Char) : Nat :=
  s.foldl decStep 0

/-- The chaining shape of a sector list built by the parser: starting from
block index `idx` and byte address `addr`, each sector carries the running
values and advances them by its own `block_count` and `total_size`. -/
def ChainFrom : Nat → Nat → List Sector → Prop
  | _, _, [] => True
  | idx, addr, s :: rest =>
    s.index = idx ∧ s.address = addr ∧
      ChainFrom (idx + s.block_count) (addr + s.total_size) rest

/-- `splitOnChar` never returns the empty list of pieces. -/
theorem splitOnChar_ne_nil (sep : Char) (s : List Char) : splitOnChar sep s ≠ [] := by
  induction s with
  | nil => simp [splitOnChar]
  | cons c rest ih =>
    simp only [splitOnChar]
    cases h : splitOnChar sep rest with
    | nil => simp
    | cons hd tl =>
      by_cases hc : c = sep <;> simp [hc]

/-- Splitting a separator-free list yields that list as the single piece. -/
theorem splitOnChar_no_sep (sep : Char) (s : List Char)
    (h : ∀ c ∈ s, c ≠ sep) : splitOnChar sep s = [s] := by
  induction s with
  | nil => rfl
  | cons c rest ih =>
    have hc : c ≠ sep := h c (by simp)
    have ih' := ih (fun d hd => h d (by simp [hd]))
    simp [splitOnChar, ih', hc]

/-- Splitting peels off a separator-free prefix before the first separator. -/
theorem splitOnChar_append_sep (sep : Char) (xs ys : List Char)
    (h : ∀ c ∈ xs, c ≠ sep) :
    splitOnChar sep (xs ++ sep :: ys) = xs :: splitOnChar sep ys := by
  induction xs with
  | nil =>
    simp only [List.nil_append, splitOnChar]
    cases hys : splitOnChar sep ys with
    | nil => exact absurd hys (splitOnChar_ne_nil sep ys)
    | cons hd tl => simp
  | cons x xs ih =>
    have hx : x ≠ sep := h x (by simp)
    have ih' := ih (fun d hd => h d (by simp [hd]))
    simp [splitOnChar, ih', hx]

/-- `dropWhile` is the identity when no element satisfies the predicate. -/
theorem dropWhile_eq_self_of (p : Char → Bool) (s : List Char)
    (h : ∀ c ∈ s, p c = false) : s.dropWhile p = s := by
  induction s with
  | nil => rfl
  | cons c rest _ =>
    have hc : p c = false := h c (by simp)
    simp [List.dropWhile, hc]

/-- `trim` is the identity on whitespace-free lists. -/
theorem trim_eq_self (s : List Char)
    (h : ∀ c ∈ s, isRustWhitespace c = false) : trim s = s := by
  unfold trim
  rw [dropWhile_eq_self_of _ s h]
  rw [dropWhile_eq_self_of _ s.reverse (fun c hc => h c (List.mem_reverse.mp hc))]
  exact List.reverse_reverse s

/-- A decimal digit character is not whitespace. -/
theorem digit_not_ws (c : Char) (h : isDecDigit c = true) :
    isRustWhitespace c = false := by
  by_cases h1 : c = ' '
  · subst h1; exact absurd h (by decide)
  by_cases h2 : c = '\t'
  · subst h2; exact absurd h (by decide)
  by_cases h3 : c = '\n'
  · subst h3; exact absurd h (by decide)
  by_cases h4 : c = '\r'
  · subst h4; exact absurd h (by decide)
  simp [isRustWhitespace, h1, h2, h3, h4]

/-- A decimal digit character is not the field separator `'*'`. -/
theorem digit_ne_star (c : Char) (h : isDecDigit c = true) : c ≠ '*' := by
  intro he; subst he; exact absurd h (by decide)

/-- A decimal digit character is not the sign `'+'`. -/
theorem digit_ne_plus (c : Char) (h : isDecDigit c = true) : c ≠ '+' := by
  intro he; subst he; exact absurd h (by decide)

/-- `trim` is the identity on digit runs. -/
theorem trim_digits (s : List Char) (h : ∀ c ∈ s, isDecDigit c = true) :
    trim s = s :=
  trim_eq_self s (fun c hc => digit_not_ws c (h c hc))

/-- `to_digit` in base 10 succeeds exactly on the decimal digits. -/
theorem to_digit_ten (c : Char) (h : isDecDigit c = true) :
    to_digit c 10 = some (c.toNat - 48) := by
  have h' : 48 ≤ c.toNat ∧ c.toNat ≤ 57 := by
    simpa [isDecDigit, Bool.and_eq_true, decide_eq_true_eq] using h
  have hlt : c.toNat - 48 < 10 := by omega
  simp [to_digit, h'.1, h'.2, hlt]

/-- The decimal fold never decreases the accumulator. -/
theorem foldl_decStep_le (s : List Char) : ∀ acc : Nat, acc ≤ s.foldl decStep acc := by
  induction s with
  | nil => intro acc; simp
  | cons c rest ih =>
    intro acc
    have h1 : acc ≤ decStep acc c := by unfold decStep; omega
    calc acc ≤ decStep acc c := h1
      _ ≤ rest.foldl decStep (decStep acc c) := ih _
      _ = (c :: rest).foldl decStep acc := by simp [List.foldl]

/-- The digit-accumulation loop computes the decimal fold when the final
value stays within `usize` bounds. -/
theorem from_str_radix_go_digits (s : List Char) : ∀ acc : Nat,
    (∀ c ∈ s, isDecDigit c = true) → s.foldl decStep acc ≤ USIZE_MAX →
    from_str_radix_go 10 s acc = some (s.foldl decStep acc) := by
  induction s with
  | nil => intro acc _ _; rfl
  | cons c rest ih =>
    intro acc h hb
    have hc : isDecDigit c = true := h c (by simp)
    have hfold : (c :: rest).foldl decStep acc = rest.foldl decStep (decStep acc c) := by
      simp [List.foldl]
    have hstep : decStep acc c ≤ USIZE_MAX := by
      have := foldl_decStep_le rest (decStep acc c)
      rw [hfold] at hb
      omega
    have hstep' : acc * 10 + (c.toNat - 48) ≤ USIZE_MAX := hstep
    rw [hfold] at hb ⊢
    simp only [from_str_radix_go, to_digit_ten c hc, hstep', if_pos]
    exact ih (decStep acc c) (fun d hd => h d (by simp [hd])) hb

/-- `str::parse::<usize>` (= `from_str_radix` base 10) maps a non-empty
in-range digit run to its decimal value. -/
theorem from_str_radix_decimal (s : List Char) (hne : s ≠ [])
    (h : ∀ c ∈ s, isDecDigit c = true) (hb : decValue s ≤ USIZE_MAX) :
    from_str_radix s 10 = .ok (decValue s) := by
  cases s with
  | nil => exact absurd rfl hne
  | cons c rest =>
    have hc : c ≠ '+' := digit_ne_plus c (h c (by simp))
    have hgo := from_str_radix_go_digits (c :: rest) 0 h hb
    simp only [from_str_radix, hc, if_neg, reduceIte]
    rw [hgo]
    rfl

/-- Cutting a layout token of the form `pre ++ [m, a]`: the two structural
characters are the last two, everything before them is split on `'*'`. -/
theorem parse_sector_layout_decompose (idx addr : Nat) (pre : List Char)
    (m a : Char) :
    parse_sector_layout idx addr (pre ++ [m, a]) =
      parse_sector_fields idx addr (splitOnChar '*' pre) [m, a] := by
  have hlen : (pre ++ [m, a]).length = pre.length + 2 := by simp
  have hsub : pre.length + 2 - 2 = pre.length := by omega
  unfold parse_sector_layout
  rw [hlen, hsub, if_neg (by omega)]
  rw [List.take_left' rfl, List.drop_left' rfl]

/-- `parse_sector_fields` on trimmed-and-parsed digit fields and valid
structural characters builds the expected sector, ignoring any fields after
the second; the multiplied size must stay within `usize` range, where the
wrapping multiplication is the exact product. -/
theorem parse_sector_fields_digits (idx addr : Nat) (cnt sz : List Char)
    (rest : List (List Char)) (m a : Char) (mult acc : Nat)
    (hcne : cnt ≠ []) (hszne : sz ≠ [])
    (hc : ∀ c ∈ cnt, isDecDigit c = true) (hs : ∀ c ∈ sz, isDecDigit c = true)
    (hcb : decValue cnt ≤ USIZE_MAX) (hsb : decValue sz ≤ USIZE_MAX)
    (hpb : decValue sz * mult ≤ USIZE_MAX)
    (hm : size_multiplier_of_char m = some mult)
    (ha : access_of_char a = some acc) :
    parse_sector_fields idx addr (cnt :: sz :: rest) [m, a] =
      .ok (Sector.new idx addr (decValue cnt) (decValue sz * mult) acc) := by
  simp only [parse_sector_fields]
  rw [trim_digits cnt hc, trim_digits sz hs]
  rw [from_str_radix_decimal cnt hcne hc hcb]
  rw [from_str_radix_decimal sz hszne hs hsb]
  have hmod : decValue sz * mult % (USIZE_MAX + 1) = decValue sz * mult :=
    Nat.mod_eq_of_lt (by omega)
  simp [hm, ha, hmod]

/-- A layout token `cnt*sz` followed by two valid structural characters
parses to the sector with the decimal values of the two fields, provided
the multiplied size stays within `usize` range. -/
theorem parse_sector_layout_digit_token (idx addr : Nat) (cnt sz : List Char)
    (m a : Char) (mult acc : Nat)
    (hcne : cnt ≠ []) (hszne : sz ≠ [])
    (hc : ∀ c ∈ cnt, isDecDigit c = true) (hs : ∀ c ∈ sz, isDecDigit c = true)
    (hcb : decValue cnt ≤ USIZE_MAX) (hsb : decValue sz ≤ USIZE_MAX)
    (hpb : decValue sz * mult ≤ USIZE_MAX)
    (hm : size_multiplier_of_char m = some mult)
    (ha : access_of_char a = some acc) :
    parse_sector_layout idx addr (cnt ++ ['*'] ++ sz ++ [m, a]) =
      .ok (Sector.new idx addr (decValue cnt) (decValue sz * mult) acc) := by
  have hshape : cnt ++ ['*'] ++ sz ++ [m, a] = (cnt ++ '*' :: sz) ++ [m, a] := by
    simp
  rw [hshape, parse_sector_layout_decompose]
  rw [splitOnChar_append_sep '*' cnt sz (fun c hc' => digit_ne_star c (hc c hc'))]
  rw [splitOnChar_no_sep '*' sz (fun c hc' => digit_ne_star c (hs c hc'))]
  exact parse_sector_fields_digits idx addr cnt sz [] m a mult acc
    hcne hszne hc hs hcb hsb hpb hm ha

/-- Like `parse_sector_layout_digit_token`, but with extra `'*'`-separated
material between the size field and the structural characters: the extra
fields are ignored. -/
theorem parse_sector_layout_digit_token_extra (idx addr : Nat)
    (cnt sz restchars : List Char) (m a : Char) (mult acc : Nat)
    (hcne : cnt ≠ []) (hszne : sz ≠ [])
    (hc : ∀ c ∈ cnt, isDecDigit c = true) (hs : ∀ c ∈ sz, isDecDigit c = true)
    (hcb : decValue cnt ≤ USIZE_MAX) (hsb : decValue sz ≤ USIZE_MAX)
    (hpb : decValue sz * mult ≤ USIZE_MAX)
    (hm : size_multiplier_of_char m = some mult)
    (ha : access_of_char a = some acc) :
    parse_sector_layout idx addr (cnt ++ ['*'] ++ sz ++ ['*'] ++ restchars ++ [m, a]) =
      .ok (Sector.new idx addr (decValue cnt) (decValue sz * mult) acc) := by
  have hshape : cnt ++ ['*'] ++ sz ++ ['*'] ++ restchars ++ [m, a] =
      (cnt ++ '*' :: (sz ++ '*' :: restchars)) ++ [m, a] := by simp
  rw [hshape, parse_sector_layout_decompose]
  rw [splitOnChar_append_sep '*' cnt (sz ++ '*' :: restchars)
    (fun c hc' => digit_ne_star c (hc c hc'))]
  rw [splitOnChar_append_sep '*' sz restchars
    (fun c hc' => digit_ne_star c (hs c hc'))]
  exact parse_sector_fields_digits idx addr cnt sz (splitOnChar '*' restchars)
    m a mult acc hcne hszne hc hs hcb hsb hpb hm ha

/-- Every sector the layout parser accepts carries exactly the running block
index and running address it was called with. -/
theorem parse_sector_layout_ok_base (idx addr : Nat) (l : List Char) (s : Sector)
    (h : parse_sector_layout idx addr l = .ok s) :
    s.index = idx ∧ s.address = addr := by
  unfold parse_sector_layout at h
  split at h
  · cases h
  · unfold parse_sector_fields at h
    repeat' split at h
    all_goals cases h
    exact ⟨rfl, rfl⟩

/-- The sector loop threads the running block index and address exactly as
`ChainFrom` describes. -/
theorem parse_sectors_chain (layouts : List (List Char)) :
    ∀ idx addr sectors, parse_sectors idx addr layouts = .ok sectors →
      ChainFrom idx addr sectors := by
  induction layouts with
  | nil =>
    intro idx addr sectors h
    simp only [parse_sectors] at h
    cases h
    trivial
  | cons l rest ih =>
    intro idx addr sectors h
    simp only [parse_sectors] at h
    split at h
    · cases h
    · cases h
    · rename_i s hs
      split at h
      · cases h
      · cases h
      · rename_i sectors' hr
        cases h
        have hbase := parse_sector_layout_ok_base idx addr l s hs
        exact ⟨hbase.1, hbase.2, ih _ _ _ hr⟩

/-- In a chained sector list, each sector continues the previous one. -/
theorem chainFrom_get (l : List Sector) :
    ∀ idx addr, ChainFrom idx addr l → ∀ k s s', l[k]? = some s →
      l[k + 1]? = some s' →
      s'.address = s.address + s.total_size ∧
        s'.index = s.index + s.block_count := by
  induction l with
  | nil => intro idx addr _ k s s' h1 _; simp at h1
  | cons a rest ih =>
    intro idx addr hch k s s' h1 h2
    obtain ⟨hidx, haddr, hrest⟩ := hch
    cases k with
    | zero =>
      have hsa : a = s := by simpa using h1
      subst hsa
      cases rest with
      | nil => simp at h2
      | cons b tl =>
        have hsb : b = s' := by simpa using h2
        subst hsb
        obtain ⟨hbidx, hbaddr, _⟩ := hrest
        subst hidx; subst haddr
        exact ⟨hbaddr, hbidx⟩
    | succ k' =>
      exact ih _ _ hrest k' s s' (by simpa using h1) (by simpa using h2)

/-- In a chained sector list, the first sector carries the start values. -/
theorem chainFrom_head (l : List Sector) (idx addr : Nat)
    (h : ChainFrom idx addr l) (s : Sector) (h0 : l[0]? = some s) :
    s.index = idx ∧ s.address = addr := by
  cases l with
  | nil => simp at h0
  | cons a rest =>
    have hsa : a = s := by simpa using h0
    subst hsa
    exact ⟨h.1, h.2.1⟩

/-- Inversion of one successful step of the bank loop: either there were no
remaining segments, or the segments started with a fully parsed
(address, layout) pair. -/
theorem parse_banks_ok_inv (parts : List (List Char)) (i : Nat)
    (banks : List Bank) (h : parse_banks i parts = .ok banks) :
    (parts = [] ∧ banks = []) ∨
      ∃ addr_str layouts_str rest2 base sl banks',
        parts = addr_str :: layouts_str :: rest2 ∧
        usize_from_string addr_str = .ok base ∧
        parse_sectors 0 base (splitOnChar ',' layouts_str) = .ok sl ∧
        parse_banks (i + 1) rest2 = .ok banks' ∧
        banks = Bank.from_sectors i sl :: banks' := by
  cases parts with
  | nil =>
    left
    simp only [parse_banks] at h
    cases h
    exact ⟨rfl, rfl⟩
  | cons addr_str rest =>
    right
    simp only [parse_banks] at h
    split at h
    · cases h
    · rename_i base hu
      split at h
      · cases h
      · rename_i layouts_str rest2
        split at h
        · cases h
        · cases h
        · rename_i sl hps
          split at h
          · cases h
          · cases h
          · rename_i banks' hpb
            cases h
            exact ⟨addr_str, layouts_str, rest2, base, sl, banks',
              rfl, hu, hps, hpb, rfl⟩

/-- Every bank a successful bank loop produces has sectors chained from
block index 0 at the bank's own address. -/
theorem parse_banks_chain (banks : List Bank) :
    ∀ (parts : List (List Char)) (i : Nat), parse_banks i parts = .ok banks →
      ∀ b ∈ banks, ChainFrom 0 b.address b.sectors := by
  induction banks with
  | nil => intro parts i _ b hb; simp at hb
  | cons bank bks ih =>
    intro parts i h b hb
    rcases parse_banks_ok_inv parts i _ h with ⟨_, hb0⟩ | ⟨a, l, r2, base, sl, banks', _, _, hps, hpb, hbeq⟩
    · cases hb0
    · cases hbeq
      rcases List.mem_cons.mp hb with hbb | hbb
      · subst hbb
        have hchain : ChainFrom 0 base sl := parse_sectors_chain _ 0 base sl hps
        cases sl with
        | nil => trivial
        | cons s tl =>
          have hsaddr : s.address = base := hchain.2.1
          show ChainFrom 0 (Bank.from_sectors i (s :: tl)).address (s :: tl)
          have haddr : (Bank.from_sectors i (s :: tl)).address = s.address := rfl
          rw [haddr, hsaddr]
          exact hchain
      · exact ih r2 (i + 1) hpb b hbb

/-- A successful bank loop consumed an even number of segments. -/
theorem parse_banks_ok_even (banks : List Bank) :
    ∀ (parts : List (List Char)) (i : Nat), parse_banks i parts = .ok banks →
      parts.length % 2 = 0 := by
  induction banks with
  | nil =>
    intro parts i h
    rcases parse_banks_ok_inv parts i _ h with ⟨hp, _⟩ | ⟨_, _, _, _, _, _, _, _, _, _, hbeq⟩
    · subst hp; rfl
    · cases hbeq
  | cons bank bks ih =>
    intro parts i h
    rcases parse_banks_ok_inv parts i _ h with ⟨_, hb0⟩ | ⟨a, l, r2, base, sl, banks', hp, _, _, hpb, hbeq⟩
    · cases hb0
    · cases hbeq
      subst hp
      have := ih r2 (i + 1) hpb
      simp only [List.length_cons]
      omega

/-- Appending one further address segment (that parses) to segments the bank
loop fully consumes makes the loop fail with `InvalidBankPartCount`. -/
theorem parse_banks_append_last (banks : List Bank) :
    ∀ (front : List (List Char)) (i : Nat) (last : List Char) (a : Nat),
      parse_banks i front = .ok banks → usize_from_string last = .ok a →
      parse_banks i (front ++ [last]) = .err .InvalidBankPartCount := by
  induction banks with
  | nil =>
    intro front i last a h hlast
    rcases parse_banks_ok_inv front i _ h with ⟨hp, _⟩ | ⟨_, _, _, _, _, _, _, _, _, _, hbeq⟩
    · subst hp
      simp only [List.nil_append, parse_banks, hlast]
    · cases hbeq
  | cons bank bks ih =>
    intro front i last a h hlast
    rcases parse_banks_ok_inv front i _ h with ⟨_, hb0⟩ | ⟨x, l, r2, base, sl, banks', hp, hu, hps, hpb, hbeq⟩
    · cases hb0
    · cases hbeq
      subst hp
      simp only [List.cons_append, parse_banks, hu, hps]
      rw [ih r2 (i + 1) last a hpb hlast]

/-- Inversion of a successful descriptor parse: the string split on `/` into
a `@`-name and segments the bank loop fully consumed. -/
theorem parse_memory_layout_string_ok_inv (s : List Char) (mm : MemoryMap)
    (h : parse_memory_layout_string s = .ok mm) :
    ∃ name rest, splitOnChar '/' s = name :: rest ∧
      starts_with name '@' = true ∧ parse_banks 0 rest = .ok mm.banks := by
  unfold parse_memory_layout_string at h
  split at h
  · cases h
  · rename_i name rest hsp
    split at h
    · cases h
    · rename_i hat
      have hat' : starts_with name '@' = true := by
        cases hs' : starts_with name '@'
        · rw [hs'] at hat; exact absurd rfl hat
        · rfl
      split at h
      · cases h
      · cases h
      · rename_i banks hpb
        cases h
        exact ⟨name, rest, hsp, hat', hpb⟩

/-- Every error the sector-layout parser reports is
`InvalidSectorDefinition`. -/
theorem parse_sector_layout_err_isd (idx addr : Nat) (l : List Char)
    (e : DefParseError) (h : parse_sector_layout idx addr l = .err e) :
    e = .InvalidSectorDefinition := by
  unfold parse_sector_layout at h
  split at h
  · cases h
  · unfold parse_sector_fields at h
    repeat' split at h
    all_goals cases h
    all_goals rfl

/-- Every error the sector loop reports is `InvalidSectorDefinition`. -/
theorem parse_sectors_err_isd (layouts : List (List Char)) :
    ∀ idx addr e, parse_sectors idx addr layouts = .err e →
      e = .InvalidSectorDefinition := by
  induction layouts with
  | nil =>
    intro idx addr e h
    simp only [parse_sectors] at h
    cases h
  | cons l rest ih =>
    intro idx addr e h
    simp only [parse_sectors] at h
    split at h
    · cases h
    · rename_i e' hs
      cases h
      exact parse_sector_layout_err_isd _ _ _ _ hs
    · rename_i s hs
      split at h
      · cases h
      · rename_i e' hr
        cases h
        exact ih _ _ _ hr
      · cases h

/-- Converse inversion for the bank loop: an `InvalidBankPartCount` failure
only arises from a trailing unpaired address segment that parses, after all
preceding (address, layout) pairs parsed successfully. -/
theorem parse_banks_ibpc_inv :
    ∀ (parts : List (List Char)) (i : Nat),
      parse_banks i parts = .err .InvalidBankPartCount →
      ∃ front last banks a, parts = front ++ [last] ∧
        parse_banks i front = .ok banks ∧ usize_from_string last = .ok a
  | [], i, h => by
    simp only [parse_banks] at h
    cases h
  | addr_str :: rest, i, h => by
    simp only [parse_banks] at h
    split at h
    · cases h
    · rename_i base hu
      split at h
      · exact ⟨[], addr_str, [], base, rfl, rfl, hu⟩
      · rename_i layouts_str rest2
        split at h
        · cases h
        · rename_i e' hps
          cases h
          have hisd := parse_sectors_err_isd _ 0 base _ hps
          cases hisd
        · rename_i sl hps
          split at h
          · cases h
          · rename_i e' hpb
            cases h
            obtain ⟨front', last', banks', a', hp, hok, hlast⟩ :=
              parse_banks_ibpc_inv rest2 (i + 1) hpb
            refine ⟨addr_str :: layouts_str :: front', last',
              Bank.from_sectors i sl :: banks', a', ?_, ?_, hlast⟩
            · rw [hp]; rfl
            · simp only [parse_banks, hu, hps, hok]
          · cases h

/-- Converse inversion at the descriptor level: an `InvalidBankPartCount`
failure of the whole parse decomposes the segments after a `@`-name into
fully parsed pairs plus one trailing address segment that parses. -/
theorem parse_memory_layout_string_ibpc_inv (s : List Char)
    (h : parse_memory_layout_string s = .err .InvalidBankPartCount) :
    ∃ name front last banks a,
      splitOnChar '/' s = name :: (front ++ [last]) ∧
      starts_with name '@' = true ∧
      parse_banks 0 front = .ok banks ∧
      usize_from_string last = .ok a := by
  unfold parse_memory_layout_string at h
  split at h
  · rename_i hsp
    exact absurd hsp (splitOnChar_ne_nil '/' s)
  · rename_i name rest hsp
    split at h
    · cases h
    · rename_i hat
      have hat' : starts_with name '@' = true := by
        cases hs' : starts_with name '@'
        · rw [hs'] at hat; exact absurd rfl hat
        · rfl
      split at h
      · cases h
      · rename_i e' hpb
        cases h
        obtain ⟨front, last, banks, a, hp, hok, hlast⟩ :=
          parse_banks_ibpc_inv rest 0 hpb
        exact ⟨name, front, last, banks, a, by rw [hsp, hp], hat', hok, hlast⟩
      · cases h

/-- C1: the claim says a space size-multiplier character leaves the parsed
size unchanged (multiplier 1).  The source instead multiplies by 0
(`' ' => 0` in `parse_sector_layout`), so the real device token `01*016 e`
yields a sector with `block_size` 0 rather than 16.  This theorem evaluates
the parser at that failing input. -/
theorem c1_space_multiplier_yields_zero_block_size :
    parse_sector_layout 0 0x1FFFC000 (String.data "01*016 e") =
      .ok (Sector.new 0 0x1FFFC000 1 0 Accessibility.READ_WRITE) ∧
    Sector.block_size (Sector.new 0 0x1FFFC000 1 0 Accessibility.READ_WRITE) = 0 := by
  decide

/-- C2 counterexample: the count/size fields are NOT parsed by the
NumericLiteral Parser.  On the token `04*016Kg` the code produces block size
16·1024 (decimal 16), while `usize_from_string` applied to the same field
`016` returns 14 (octal) — so the claim's parsing story is false. -/
theorem c2_counterexample :
    parse_sector_layout 0 0 (String.data "04*016Kg") =
      .ok (Sector.new 0 0 4 (16 * 1024) Accessibility.READ_WRITE_ERASE) ∧
    usize_from_string (String.data "016") = .ok 14 := by
  decide

/-- C2 (amended): the portion before the two trailing structural characters
is split on `*` into a count field and a size field, each trimmed and each
parsed as a plain decimal integer (Rust `str::parse::<usize>`), so a digit
run like `016` denotes its decimal value 16 — stated for fields and a
multiplied size within `usize` range, where the `usize` multiplication does
not overflow; the second conjunct shows the fields are indeed trimmed. -/
theorem c2_amended_decimal_fields :
    (∀ (idx addr : Nat) (cnt sz : List Char) (m a : Char) (mult acc : Nat),
      cnt ≠ [] → sz ≠ [] →
      (∀ c ∈ cnt, isDecDigit c = true) → (∀ c ∈ sz, isDecDigit c = true) →
      decValue cnt ≤ USIZE_MAX → decValue sz ≤ USIZE_MAX →
      decValue sz * mult ≤ USIZE_MAX →
      size_multiplier_of_char m = some mult → access_of_char a = some acc →
      parse_sector_layout idx addr (cnt ++ ['*'] ++ sz ++ [m, a]) =
        .ok (Sector.new idx addr (decValue cnt) (decValue sz * mult) acc))
    ∧ parse_sector_layout 0 0 (String.data " 4 * 16 Kg") =
        .ok (Sector.new 0 0 4 (16 * 1024) Accessibility.READ_WRITE_ERASE) := by
  exact ⟨fun idx addr cnt sz m a mult acc h1 h2 h3 h4 h5 h6 h7 h8 h9 =>
    parse_sector_layout_digit_token idx addr cnt sz m a mult acc
      h1 h2 h3 h4 h5 h6 h7 h8 h9, by decide⟩

/-- Witness for C2 (amended), at the fields of the token `04*016Kg`. -/
theorem c2_amended_decimal_fields_witness :
    parse_sector_layout 0 0
        (String.data "04" ++ ['*'] ++ String.data "016" ++ ['K', 'g']) =
      .ok (Sector.new 0 0 (decValue (String.data "04"))
        (decValue (String.data "016") * 1024) Accessibility.READ_WRITE_ERASE) := by
  exact c2_amended_decimal_fields.1 0 0 (String.data "04") (String.data "016")
    'K' 'g' 1024 Accessibility.READ_WRITE_ERASE (by decide) (by decide)
    (by decide) (by decide) (by decide) (by decide) (by decide) (by decide)
    (by decide)

/-- C3: the parsers are NOT total.  A layout token shorter than two
characters reaches the unchecked `layoutstr.len() - 2` and the subsequent
slice, which panics; an empty layout segment in a full descriptor funnels
the empty token into the same panic. -/
theorem c3_short_layout_token_panics :
    parse_sector_layout 0 0 [] = .panics ∧
    parse_sector_layout 0 0 ['K'] = .panics ∧
    parse_memory_layout_string (String.data "@Internal Flash/0x08000000/") =
      .panics := by
  decide

/-- C4: the example descriptor parses to the expected memory map: name
`Internal Flash`, one bank (index 0, address `0x08000000`), three sectors
with (index, address, total_size) = (0, 0x08000000, 0x10000),
(4, 0x08010000, 0x10000), (5, 0x08020000, 0x60000). -/
theorem c4_example_descriptor :
    parse_memory_layout_string
        (String.data "@Internal Flash  /0x08000000/04*016Kg,01*064Kg,03*128Kg") =
      .ok (MemoryMap.new (String.data "Internal Flash")
        [Bank.new 0 0x08000000
          [Sector.new 0 0x08000000 4 0x4000 Accessibility.READ_WRITE_ERASE,
           Sector.new 4 0x08010000 1 0x10000 Accessibility.READ_WRITE_ERASE,
           Sector.new 5 0x08020000 3 0x20000 Accessibility.READ_WRITE_ERASE]]) ∧
    Sector.total_size (Sector.new 0 0x08000000 4 0x4000 Accessibility.READ_WRITE_ERASE) =
      0x10000 ∧
    Sector.total_size (Sector.new 4 0x08010000 1 0x10000 Accessibility.READ_WRITE_ERASE) =
      0x10000 ∧
    Sector.total_size (Sector.new 5 0x08020000 3 0x20000 Accessibility.READ_WRITE_ERASE) =
      0x60000 := by
  decide

/-- C5: in every bank of a successful parse, each sector k (k ≥ 1) starts at
the previous sector's address plus its total size and at the previous
sector's block index plus its block count, and the chain starts at the
bank's address with block index 0. -/
theorem c5_chaining :
    ∀ (ifstring : List Char) (mm : MemoryMap),
      parse_memory_layout_string ifstring = .ok mm →
      ∀ b ∈ mm.banks,
        (∀ k s s', b.sectors[k]? = some s → b.sectors[k + 1]? = some s' →
          s'.address = s.address + s.total_size ∧
            s'.index = s.index + s.block_count)
        ∧ (∀ s, b.sectors[0]? = some s → s.index = 0 ∧ s.address = b.address) := by
  intro ifstring mm h b hb
  obtain ⟨name, rest, _, _, hpb⟩ := parse_memory_layout_string_ok_inv ifstring mm h
  have hchain := parse_banks_chain mm.banks rest 0 hpb b hb
  constructor
  · intro k s s' h1 h2
    exact chainFrom_get b.sectors 0 b.address hchain k s s' h1 h2
  · intro s h0
    exact chainFrom_head b.sectors 0 b.address hchain s h0

/-- Witness for C5, on the example descriptor's first two sectors. -/
theorem c5_chaining_witness :
    Sector.address (Sector.new 4 0x08010000 1 0x10000 Accessibility.READ_WRITE_ERASE) =
      Sector.address (Sector.new 0 0x08000000 4 0x4000 Accessibility.READ_WRITE_ERASE) +
        Sector.total_size (Sector.new 0 0x08000000 4 0x4000 Accessibility.READ_WRITE_ERASE) ∧
    Sector.index (Sector.new 4 0x08010000 1 0x10000 Accessibility.READ_WRITE_ERASE) =
      Sector.index (Sector.new 0 0x08000000 4 0x4000 Accessibility.READ_WRITE_ERASE) +
        Sector.block_count (Sector.new 0 0x08000000 4 0x4000 Accessibility.READ_WRITE_ERASE) := by
  have h := c5_chaining
    (String.data "@Internal Flash  /0x08000000/04*016Kg,01*064Kg,03*128Kg")
    (MemoryMap.new (String.data "Internal Flash")
      [Bank.new 0 0x08000000
        [Sector.new 0 0x08000000 4 0x4000 Accessibility.READ_WRITE_ERASE,
         Sector.new 4 0x08010000 1 0x10000 Accessibility.READ_WRITE_ERASE,
         Sector.new 5 0x08020000 3 0x20000 Accessibility.READ_WRITE_ERASE]])
    (by decide)
    (Bank.new 0 0x08000000
      [Sector.new 0 0x08000000 4 0x4000 Accessibility.READ_WRITE_ERASE,
       Sector.new 4 0x08010000 1 0x10000 Accessibility.READ_WRITE_ERASE,
       Sector.new 5 0x08020000 3 0x20000 Accessibility.READ_WRITE_ERASE])
    (by decide)
  exact h.1 0 _ _ rfl rfl

/-- C6: the NumericLiteral Parser maps `0x08000000` to 0x08000000, `0123`
to octal 123 = decimal 83, `0b101` to 5, and fails on the bare token `0`. -/
theorem c6_numeric_literal_examples :
    usize_from_string (String.data "0x08000000") = .ok 0x08000000 ∧
    usize_from_string (String.data "0123") = .ok 83 ∧
    usize_from_string (String.data "0b101") = .ok 5 ∧
    usize_from_string (String.data "0") = .error () := by
  decide

/-- C7: `is_accessible required` holds iff every bit of `required` is set in
the sector's accessibility (subset test); a READ_WRITE_ERASE sector is
accessible for any sub-combination of the three bits, and a READ-only
sector is not accessible for WRITE. -/
theorem c7_is_accessible_subset :
    (∀ (s : Sector) (req : Nat),
      s.is_accessible req = true ↔
        (∀ i, req.testBit i = true → s.access.testBit i = true))
    ∧ (∀ idx addr bc bs req, req &&& Accessibility.READ_WRITE_ERASE = req →
        Sector.is_accessible
          (Sector.new idx addr bc bs Accessibility.READ_WRITE_ERASE) req = true)
    ∧ (∀ idx addr bc bs,
        Sector.is_accessible (Sector.new idx addr bc bs Accessibility.READ)
          Accessibility.WRITE = false) := by
  refine ⟨?_, ?_, ?_⟩
  · intro s req
    unfold Sector.is_accessible
    rw [beq_iff_eq]
    constructor
    · intro h i hbit
      have hbs := congrArg (fun n => n.testBit i) h
      simp only [Nat.testBit_land, hbit, Bool.true_and] at hbs
      exact hbs
    · intro h
      apply Nat.eq_of_testBit_eq
      intro i
      rw [Nat.testBit_land]
      cases hb : req.testBit i
      · simp
      · simp [h i hb]
  · intro idx addr bc bs req h
    show (req &&& Accessibility.READ_WRITE_ERASE == req) = true
    rw [h]
    simp
  · intro idx addr bc bs
    show (Accessibility.WRITE &&& Accessibility.READ == Accessibility.WRITE) = false
    decide

/-- Witness for C7: a READ_WRITE_ERASE sector accepts WRITE+ERASE, a
READ-only sector rejects WRITE. -/
theorem c7_is_accessible_subset_witness :
    Sector.is_accessible (Sector.new 0 0 1 1 Accessibility.READ_WRITE_ERASE) 6 = true ∧
    Sector.is_accessible (Sector.new 0 0 1 1 Accessibility.READ)
      Accessibility.WRITE = false := by
  exact ⟨c7_is_accessible_subset.2.1 0 0 1 1 6 (by decide),
    c7_is_accessible_subset.2.2 0 0 1 1⟩

/-- C8 counterexample: the descriptor `@X/zz` has an odd number of segments
after the name, yet the parse fails with `AddressParseError`, not
`InvalidBankPartCount`, because the unpaired segment is first parsed as an
address. -/
theorem c8_counterexample :
    (splitOnChar '/' (String.data "@X/zz")).tail.length % 2 = 1 ∧
    parse_memory_layout_string (String.data "@X/zz") =
      .err .AddressParseError := by
  decide

/-- C8 (amended): with an odd number of segments after the name the parse
never succeeds; it fails with `InvalidBankPartCount` precisely when every
preceding (address, layout) pair parses and the trailing unpaired address
segment itself parses as a numeric literal — the second conjunct gives that
condition's sufficiency, and the third its necessity, so any other failure
is reported as a different error (or a panic) instead. -/
theorem c8_amended_unpaired_address :
    (∀ (s : List Char) (mm : MemoryMap),
      (splitOnChar '/' s).tail.length % 2 = 1 →
      parse_memory_layout_string s ≠ .ok mm)
    ∧ (∀ (s name last : List Char) (front : List (List Char))
        (banks : List Bank) (a : Nat),
        splitOnChar '/' s = name :: (front ++ [last]) →
        starts_with name '@' = true →
        parse_banks 0 front = .ok banks →
        usize_from_string last = .ok a →
        parse_memory_layout_string s = .err .InvalidBankPartCount)
    ∧ (∀ s : List Char,
        parse_memory_layout_string s = .err .InvalidBankPartCount →
        ∃ name front last banks a,
          splitOnChar '/' s = name :: (front ++ [last]) ∧
          starts_with name '@' = true ∧
          parse_banks 0 front = .ok banks ∧
          usize_from_string last = .ok a) := by
  refine ⟨?_, ?_, ?_⟩
  · intro s mm hodd hok
    obtain ⟨name, rest, hsp, _, hpb⟩ := parse_memory_layout_string_ok_inv s mm hok
    have heven := parse_banks_ok_even mm.banks rest 0 hpb
    rw [hsp] at hodd
    simp only [List.tail_cons] at hodd
    omega
  · intro s name last front banks a hsp hat hfront hlast
    unfold parse_memory_layout_string
    rw [hsp]
    simp only [hat, Bool.not_true, Bool.false_eq_true, if_false]
    rw [parse_banks_append_last banks front 0 last a hfront hlast]
  · intro s h
    exact parse_memory_layout_string_ibpc_inv s h

/-- Witness for C8 (amended): `@X/zz` cannot succeed, `@X/0x08000000`
(whose unpaired address parses) fails with `InvalidBankPartCount`, and that
failure conversely yields the decomposition. -/
theorem c8_amended_unpaired_address_witness :
    parse_memory_layout_string (String.data "@X/zz") ≠
      .ok (MemoryMap.new [] []) ∧
    parse_memory_layout_string (String.data "@X/0x08000000") =
      .err .InvalidBankPartCount ∧
    (∃ name front last banks a,
      splitOnChar '/' (String.data "@X/0x08000000") = name :: (front ++ [last]) ∧
      starts_with name '@' = true ∧
      parse_banks 0 front = .ok banks ∧
      usize_from_string last = .ok a) := by
  refine ⟨?_, ?_, ?_⟩
  · exact c8_amended_unpaired_address.1 (String.data "@X/zz")
      (MemoryMap.new [] []) (by decide)
  · exact c8_amended_unpaired_address.2.1 (String.data "@X/0x08000000")
      (String.data "@X") (String.data "0x08000000") [] [] 0x08000000
      (by decide) (by decide) (by decide) (by decide)
  · exact c8_amended_unpaired_address.2.2 (String.data "@X/0x08000000")
      (by decide)

/-- C9 counterexample: a layout token with a zero count field is accepted:
`@X/16/00*016Kg` parses successfully and yields a sector whose
`block_count` is 0, contradicting the claimed `block_count > 0` invariant. -/
theorem c9_counterexample :
    parse_memory_layout_string (String.data "@X/16/00*016Kg") =
      .ok (MemoryMap.new (String.data "X")
        [Bank.new 0 16
          [Sector.new 0 16 0 16384 Accessibility.READ_WRITE_ERASE]]) ∧
    Sector.block_count (Sector.new 0 16 0 16384 Accessibility.READ_WRITE_ERASE) = 0 := by
  decide

/-- C9 (amended): the grammar parser performs no positivity validation on
the count field: any digit-run count field with decimal value 0 is accepted
and yields a sector with `block_count` 0 (stated for a size field whose
multiplied value stays within `usize` range, where the `usize`
multiplication does not overflow). -/
theorem c9_amended_zero_count_accepted :
    ∀ (idx addr : Nat) (cnt sz : List Char) (m a : Char) (mult acc : Nat),
      cnt ≠ [] → sz ≠ [] →
      (∀ c ∈ cnt, isDecDigit c = true) → (∀ c ∈ sz, isDecDigit c = true) →
      decValue cnt = 0 → decValue sz ≤ USIZE_MAX →
      decValue sz * mult ≤ USIZE_MAX →
      size_multiplier_of_char m = some mult → access_of_char a = some acc →
      parse_sector_layout idx addr (cnt ++ ['*'] ++ sz ++ [m, a]) =
        .ok (Sector.new idx addr 0 (decValue sz * mult) acc) := by
  intro idx addr cnt sz m a mult acc h1 h2 h3 h4 h5 h6 h7 h8 h9
  have h := parse_sector_layout_digit_token idx addr cnt sz m a mult acc
    h1 h2 h3 h4 (by rw [h5]; exact Nat.zero_le _) h6 h7 h8 h9
  rw [h5] at h
  exact h

/-- Witness for C9 (amended), at the token `00*016Kg`. -/
theorem c9_amended_zero_count_accepted_witness :
    parse_sector_layout 0 16
        (String.data "00" ++ ['*'] ++ String.data "016" ++ ['K', 'g']) =
      .ok (Sector.new 0 16 0 (decValue (String.data "016") * 1024)
        Accessibility.READ_WRITE_ERASE) := by
  exact c9_amended_zero_count_accepted 0 16 (String.data "00") (String.data "016")
    'K' 'g' 1024 Accessibility.READ_WRITE_ERASE (by decide) (by decide)
    (by decide) (by decide) (by decide) (by decide) (by decide) (by decide)
    (by decide)

/-- C10 counterexample: a token whose pre-portion holds two `*` separators
can still fail — `x*y*zKg` has three `*`-separated fields and the parser
returns `InvalidSectorDefinition` (its first field is not a decimal). -/
theorem c10_counterexample :
    (splitOnChar '*'
      ((String.data "x*y*zKg").take ((String.data "x*y*zKg").length - 2))).length = 3 ∧
    parse_sector_layout 0 0 (String.data "x*y*zKg") =
      .err .InvalidSectorDefinition := by
  decide

/-- C10 (amended): extra `*`-separated fields never cause a failure by
themselves: whenever the first two fields are decimal digit runs whose
values and multiplied size stay within `usize` range (no overflow) and the
structural characters are valid, the parser succeeds using the first field
as the count and the second as the size, silently ignoring all further
fields. -/
theorem c10_amended_extra_fields_ignored :
    ∀ (idx addr : Nat) (cnt sz restchars : List Char) (m a : Char)
      (mult acc : Nat),
      cnt ≠ [] → sz ≠ [] →
      (∀ c ∈ cnt, isDecDigit c = true) → (∀ c ∈ sz, isDecDigit c = true) →
      decValue cnt ≤ USIZE_MAX → decValue sz ≤ USIZE_MAX →
      decValue sz * mult ≤ USIZE_MAX →
      size_multiplier_of_char m = some mult → access_of_char a = some acc →
      parse_sector_layout idx addr
          (cnt ++ ['*'] ++ sz ++ ['*'] ++ restchars ++ [m, a]) =
        .ok (Sector.new idx addr (decValue cnt) (decValue sz * mult) acc) := by
  intro idx addr cnt sz restchars m a mult acc h1 h2 h3 h4 h5 h6 h7 h8 h9
  exact parse_sector_layout_digit_token_extra idx addr cnt sz restchars m a
    mult acc h1 h2 h3 h4 h5 h6 h7 h8 h9

/-- Witness for C10 (amended), at the token `04*016*99Kg`. -/
theorem c10_amended_extra_fields_ignored_witness :
    parse_sector_layout 0 0
        (String.data "04" ++ ['*'] ++ String.data "016" ++ ['*'] ++
          String.data "99" ++ ['K', 'g']) =
      .ok (Sector.new 0 0 (decValue (String.data "04"))
        (decValue (String.data "016") * 1024) Accessibility.READ_WRITE_ERASE) := by
  exact c10_amended_extra_fields_ignored 0 0 (String.data "04")
    (String.data "016") (String.data "99") 'K' 'g' 1024
    Accessibility.READ_WRITE_ERASE (by decide) (by decide) (by decide)
    (by decide) (by decide) (by decide) (by decide) (by decide) (by decide)


end RustDfu
